import Mathlib

/-!
Verification of the Kukaya V1.0 offline-cache controller (service worker)
and auth helpers, shallowly embedded from the JavaScript sources.

The service worker (primary variant) keeps a versioned cache generation
named `CACHE_NAME`, installs an app-shell asset set, deletes stale
generations on activation, and routes GET requests with a
stale-while-revalidate policy.  The auth helper `logout` in `js/api.js`
reads the access token and nothing else.
-/

namespace Kukaya

/-- An HTTP response as the service worker observes it: status code,
response type (`basic`, `opaque`, `cors`, ...) and a body tag identifying
the content. -/
structure Response where
  status : Nat
  rtype : String
  body : String
deriving DecidableEq, Repr

/-- An intercepted request: HTTP method, URL and request mode
(`navigate` for top-level navigations). -/
structure Request where
  method : String
  url : String
  mode : String
deriving DecidableEq, Repr

/-- One cache generation: a URL-to-response mapping. -/
abbrev Cache := List (String × Response)

/-- Cache storage: named generations, in creation order. -/
abbrev CacheStorage := List (String × Cache)

/-- `CACHE_NAME = 'Kukaya-v1.0-' + new Date().getTime()` — the current
generation identifier, parameterised by the timestamp. -/
def CACHE_NAME (t : Nat) : String := "Kukaya-v1.0-" ++ toString t

/-- The app-shell asset set `urlsToCache` of the service worker. -/
def urlsToCache : List String :=
  ["/index.html", "/login.html", "/dashboard.html", "/offline.html",
   "/css/style.css", "/js/api.js", "/js/auth.js", "/js/ui.js",
   "/manifest.json", "/favicon.ico"]

/-- `cache.match(request)`: look a URL up in one generation. -/
def cacheMatch (c : Cache) (u : String) : Option Response :=
  (c.find? (fun e => e.1 == u)).map (fun e => e.2)

/-- `cache.put(request, response)`: store a response, overwriting any
prior entry for the same URL. -/
def cachePutEntry (c : Cache) (u : String) (r : Response) : Cache :=
  (u, r) :: c.filter (fun e => e.1 != u)

/-- Whether cache storage already holds a generation of this name. -/
def storageHas (s : CacheStorage) (name : String) : Bool :=
  s.any (fun g => g.1 == name)

/-- `caches.open(name)`: create the generation if absent (new caches are
appended, preserving creation order). -/
def cachesOpen (s : CacheStorage) (name : String) : CacheStorage :=
  if storageHas s name then s else s ++ [(name, [])]

/-- The generation of a given name (empty if absent). -/
def getCache (s : CacheStorage) (name : String) : Cache :=
  ((s.find? (fun g => g.1 == name)).map (fun g => g.2)).getD []

/-- Replace the contents of the named generation. -/
def setCache (s : CacheStorage) (name : String) (c : Cache) : CacheStorage :=
  s.map (fun g => if g.1 == name then (g.1, c) else g)

/-- `cache.put` lifted to cache storage: write into the named generation. -/
def cachePut (s : CacheStorage) (name u : String) (r : Response) : CacheStorage :=
  setCache s name (cachePutEntry (getCache s name) u r)

/-- `caches.match(request)`: search every generation in order. -/
def cachesMatchAll (s : CacheStorage) (u : String) : Option Response :=
  s.findSome? (fun g => cacheMatch g.2 u)

/-- `caches.delete(name)`: remove the named generation. -/
def cachesDelete (s : CacheStorage) (name : String) : CacheStorage :=
  s.filter (fun g => g.1 != name)

/-- The network, as the install step sees it: each URL either yields a
response or the fetch fails. -/
abbrev Net := String → Option Response

/-- `cache.addAll(urls)`: fetch every URL; reject (storing nothing) if any
single fetch fails, otherwise produce all entries. -/
def addAll (net : Net) : List String → Option (List (String × Response))
  | [] => some []
  | u :: us =>
    match net u, addAll net us with
    | some r, some es => some ((u, r) :: es)
    | _, _ => none

/-- Store a list of entries one by one (`addAll`'s commit step). -/
def putMany (c : Cache) (es : List (String × Response)) : Cache :=
  es.foldl (fun acc e => cachePutEntry acc e.1 e.2) c

/-- The install event listener: `caches.open(CACHE_NAME)` then
`cache.addAll(urlsToCache)`.  Returns whether the install succeeded,
together with the resulting cache storage. -/
def install (cacheName : String) (s : CacheStorage) (net : Net) :
    Bool × CacheStorage :=
  let s1 := cachesOpen s cacheName
  match addAll net urlsToCache with
  | none => (false, s1)
  | some es => (true, setCache s1 cacheName (putMany (getCache s1 cacheName) es))

/-- The activate event listener: enumerate `caches.keys()`, filter the
names differing from `CACHE_NAME`, and delete each. -/
def activate (cacheName : String) (s : CacheStorage) : CacheStorage :=
  (((s.map Prod.fst).filter (fun n => n != cacheName)).foldl
    (fun acc n => cachesDelete acc n) s)

/-- Outcome of the fetch event listener, distinguishing how the response
was produced: not intercepted (non-GET), served from cache without
awaiting the network (`immediate`), awaited from the network fetch,
served as the offline fallback page, or a propagated request failure. -/
inductive FetchOutcome where
  | passThrough
  | immediate (r : Response)
  | awaited (r : Response)
  | fallbackPage (r : Response)
  | failure
deriving DecidableEq, Repr

/-- The fetch event listener.  `net` is the eventual result of the
concurrently issued `fetch(event.request)` (`none` for a network
failure).  Non-GET requests return before `event.respondWith`; otherwise
the current generation is opened, matched against the request, the
network result (when cacheable: status 200, type basic) is written back,
and the response is the cached entry if present (`cachedResponse ||
fetchPromise`), else the network result, else the offline fallback for
navigations, else a propagated failure. -/
def handleRequest (cacheName : String) (s : CacheStorage) (req : Request)
    (net : Option Response) : FetchOutcome × CacheStorage :=
  if req.method != "GET" then (FetchOutcome.passThrough, s)
  else
    let s1 := cachesOpen s cacheName
    let cached := cacheMatch (getCache s1 cacheName) req.url
    let s2 :=
      match net with
      | some nr =>
        if nr.status == 200 && nr.rtype == "basic" then
          cachePut s1 cacheName req.url nr
        else s1
      | none => s1
    let outcome :=
      match cached with
      | some c => FetchOutcome.immediate c
      | none =>
        match net with
        | some nr => FetchOutcome.awaited nr
        | none =>
          if req.mode == "navigate" then
            match cachesMatchAll s1 "/offline.html" with
            | some off => FetchOutcome.fallbackPage off
            | none => FetchOutcome.failure
          else FetchOutcome.failure
    (outcome, s2)

/-- A JavaScript value, as far as the push handler manipulates one. -/
inductive JVal where
  | undef
  | jnull
  | jbool (b : Bool)
  | jnum (n : Int)
  | jstr (s : String)
  | jobj (fields : List (String × JVal))

/-- JavaScript truthiness. -/
def truthy : JVal → Bool
  | JVal.undef => false
  | JVal.jnull => false
  | JVal.jbool b => b
  | JVal.jnum n => n != 0
  | JVal.jstr s => s != ""
  | JVal.jobj _ => true

/-- Property access `v.k` on a truthy value: field lookup on an object,
`undefined` on other (primitive) values. -/
def getField : JVal → String → JVal
  | JVal.jobj fs, k => ((fs.find? (fun f => f.1 == k)).map (fun f => f.2)).getD JVal.undef
  | _, _ => JVal.undef

/-- The notification surfaced by `showNotification(title, {body, icon})`. -/
structure NotificationShown where
  title : JVal
  body : JVal
  icon : String

/-- The default object `{ title: 'Kukaya', body: 'New notification' }`. -/
def defaultData : JVal :=
  JVal.jobj [("title", JVal.jstr "Kukaya"), ("body", JVal.jstr "New notification")]

/-- The push event listener.  `eventData` models `event.data`: `none`
when absent (the optional chain yields `undefined`), `some (Except.error
())` when present but `.json()` throws (malformed payload), `some
(Except.ok v)` when it parses to the JSON value `v`.  The listener
computes `const data = event.data?.json() || defaults` and shows a
notification with `data.title`, `data.body` and the fixed icon; an
exception from `.json()` propagates and no notification is shown. -/
def handlePush (eventData : Option (Except Unit JVal)) :
    Except Unit NotificationShown :=
  match (match eventData with
         | none => Except.ok JVal.undef
         | some r => r) with
  | Except.error e => Except.error e
  | Except.ok parsed =>
    let data := if truthy parsed then parsed else defaultData
    Except.ok { title := getField data "title", body := getField data "body",
                icon := "/favicon.ico" }

/-- Whether the push handler surfaced a notification at all. -/
def notificationShown : Except Unit NotificationShown → Bool
  | Except.ok _ => true
  | Except.error _ => false

/-- The browser `localStorage`: string keys to string values. -/
abbrev Store := List (String × String)

/-- `localStorage.getItem(key)`. -/
def getItem (st : Store) (k : String) : Option String :=
  (st.find? (fun e => e.1 == k)).map (fun e => e.2)

/-- `logout()` from `js/api.js`: reads the access token into a local and
does nothing else.  The result is the localStorage state afterwards and
the list of HTTP requests issued. -/
def logout (st : Store) : Store × List String :=
  let _token := getItem st "access"
  (st, [])

/-! ### Basic lemmas about the cache-storage model -/

theorem storageHas_cachesOpen (s : CacheStorage) (name : String) :
    storageHas (cachesOpen s name) name = true := by
  unfold cachesOpen
  by_cases h : storageHas s name = true
  · rw [if_pos h]; exact h
  · rw [if_neg h]
    simp [storageHas, List.any_append]

theorem getCache_append_empty (s : CacheStorage) (n m : String) :
    getCache (s ++ [(n, ([] : Cache))]) m = getCache s m := by
  unfold getCache
  rw [List.find?_append]
  cases hf : s.find? (fun g => g.1 == m) with
  | some g => simp
  | none =>
    by_cases hm : (n == m) = true
    · simp [List.find?, hm]
    · simp [List.find?, hm]

theorem getCache_cachesOpen (s : CacheStorage) (n m : String) :
    getCache (cachesOpen s n) m = getCache s m := by
  unfold cachesOpen
  by_cases h : storageHas s n = true
  · rw [if_pos h]
  · rw [if_neg h]
    exact getCache_append_empty s n m

theorem getCache_setCache_self (s : CacheStorage) (name : String) (c : Cache)
    (h : storageHas s name = true) :
    getCache (setCache s name c) name = c := by
  induction s with
  | nil => simp [storageHas] at h
  | cons g gs ih =>
    by_cases hg : (g.1 == name) = true
    · simp [setCache, getCache, List.find?, hg]
    · have h2 : storageHas gs name = true := by
        simp [storageHas] at h ⊢
        rcases h with h | h
        · rw [beq_iff_eq] at hg; simp [h] at hg
        · exact h
      simp [setCache, getCache, List.find?, hg] at ih ⊢
      simpa [setCache, getCache] using ih h2

theorem cacheMatch_cachePutEntry_self (c : Cache) (u : String) (r : Response) :
    cacheMatch (cachePutEntry c u r) u = some r := by
  simp [cacheMatch, cachePutEntry, List.find?]

theorem getCache_cachePut_self (s : CacheStorage) (name u : String) (r : Response)
    (h : storageHas s name = true) :
    cacheMatch (getCache (cachePut s name u r) name) u = some r := by
  unfold cachePut
  rw [getCache_setCache_self s name _ h]
  exact cacheMatch_cachePutEntry_self _ u r

/-! ### C10 — logout leaves localStorage untouched and issues no request -/

/-- C10: for every localStorage state, `logout()` leaves the stored
`access` and `refresh` tokens and the `user` record unchanged, and issues
no HTTP request: the authentication material persists after logout. -/
theorem logout_preserves_auth_material (st : Store) :
    (logout st).1 = st ∧ (logout st).2 = [] ∧
    getItem (logout st).1 "access" = getItem st "access" ∧
    getItem (logout st).1 "refresh" = getItem st "refresh" ∧
    getItem (logout st).1 "user" = getItem st "user" := by
  exact ⟨rfl, rfl, rfl, rfl, rfl⟩

/-! ### C3 — non-GET requests pass through untouched -/

/-- C3: for every request whose method is not GET, the fetch handler
neither reads nor writes any cache: it returns before `respondWith`, and
the cache storage is returned unchanged. -/
theorem non_get_passes_through (cacheName : String) (s : CacheStorage)
    (req : Request) (net : Option Response) (h : req.method ≠ "GET") :
    handleRequest cacheName s req net = (FetchOutcome.passThrough, s) := by
  unfold handleRequest
  simp [h]

theorem non_get_passes_through_witness :
    (⟨"POST", "/api/login", "cors"⟩ : Request).method ≠ "GET" ∧
    handleRequest "Kukaya-v1.0-0" [] ⟨"POST", "/api/login", "cors"⟩ none
      = (FetchOutcome.passThrough, []) :=
  ⟨by decide, non_get_passes_through "Kukaya-v1.0-0" [] _ none (by decide)⟩

/-! ### C1 — stale-while-revalidate -/

/-- C1: for every GET request whose URL has a cached entry in the current
generation, the fetch handler returns that cached entry whatever the
network fetch eventually does (it never awaits it), and a successful
cacheable network result only updates the cache for later requests. -/
theorem stale_while_revalidate (cacheName : String) (s : CacheStorage)
    (req : Request) (c : Response)
    (hm : req.method = "GET")
    (hc : cacheMatch (getCache s cacheName) req.url = some c) :
    (∀ net : Option Response,
      (handleRequest cacheName s req net).1 = FetchOutcome.immediate c) ∧
    (∀ nr : Response, nr.status = 200 → nr.rtype = "basic" →
      cacheMatch
        (getCache (handleRequest cacheName s req (some nr)).2 cacheName)
        req.url = some nr) := by
  have hc1 : cacheMatch (getCache (cachesOpen s cacheName) cacheName) req.url
      = some c := by rw [getCache_cachesOpen]; exact hc
  constructor
  · intro net
    unfold handleRequest
    simp [hm, hc1]
  · intro nr hst hty
    unfold handleRequest
    simp only [hm, bne_self_eq_false, Bool.false_eq_true, if_false, hst, hty]
    simp [hc1]
    exact getCache_cachePut_self _ cacheName req.url nr
      (storageHas_cachesOpen s cacheName)

theorem stale_while_revalidate_witness :
    (⟨"GET", "/index.html", "navigate"⟩ : Request).method = "GET" ∧
    cacheMatch
      (getCache [("Kukaya-v1.0-7", [("/index.html", ⟨200, "basic", "old"⟩)])]
        "Kukaya-v1.0-7") "/index.html" = some ⟨200, "basic", "old"⟩ ∧
    (handleRequest "Kukaya-v1.0-7"
        [("Kukaya-v1.0-7", [("/index.html", ⟨200, "basic", "old"⟩)])]
        ⟨"GET", "/index.html", "navigate"⟩ none).1
      = FetchOutcome.immediate ⟨200, "basic", "old"⟩ ∧
    cacheMatch
      (getCache (handleRequest "Kukaya-v1.0-7"
          [("Kukaya-v1.0-7", [("/index.html", ⟨200, "basic", "old"⟩)])]
          ⟨"GET", "/index.html", "navigate"⟩
          (some ⟨200, "basic", "new"⟩)).2 "Kukaya-v1.0-7")
      "/index.html" = some ⟨200, "basic", "new"⟩ := by
  refine ⟨rfl, by decide, ?_, ?_⟩
  · exact (stale_while_revalidate "Kukaya-v1.0-7"
      [("Kukaya-v1.0-7", [("/index.html", ⟨200, "basic", "old"⟩)])]
      ⟨"GET", "/index.html", "navigate"⟩ ⟨200, "basic", "old"⟩
      rfl (by decide)).1 none
  · exact (stale_while_revalidate "Kukaya-v1.0-7"
      [("Kukaya-v1.0-7", [("/index.html", ⟨200, "basic", "old"⟩)])]
      ⟨"GET", "/index.html", "navigate"⟩ ⟨200, "basic", "old"⟩
      rfl (by decide)).2 ⟨200, "basic", "new"⟩ rfl rfl

/-! ### C5 — offline fallback for navigations -/

/-- C5: a navigation GET request with no cached entry whose network fetch
fails is answered with the offline fallback page found in cache storage
under the URL /offline.html. -/
theorem navigation_offline_fallback (cacheName : String) (s : CacheStorage)
    (req : Request) (off : Response)
    (hm : req.method = "GET") (hmode : req.mode = "navigate")
    (hnc : cacheMatch (getCache s cacheName) req.url = none)
    (hoff : cachesMatchAll (cachesOpen s cacheName) "/offline.html" = some off) :
    (handleRequest cacheName s req none).1 = FetchOutcome.fallbackPage off := by
  have hnc1 : cacheMatch (getCache (cachesOpen s cacheName) cacheName) req.url
      = none := by rw [getCache_cachesOpen]; exact hnc
  unfold handleRequest
  simp [hm, hmode, hnc1, hoff]

theorem navigation_offline_fallback_witness :
    (⟨"GET", "/dashboard.html", "navigate"⟩ : Request).method = "GET" ∧
    (⟨"GET", "/dashboard.html", "navigate"⟩ : Request).mode = "navigate" ∧
    cacheMatch
      (getCache [("Kukaya-v1.0-7", [("/offline.html", ⟨200, "basic", "off"⟩)])]
        "Kukaya-v1.0-7") "/dashboard.html" = none ∧
    cachesMatchAll
      (cachesOpen [("Kukaya-v1.0-7", [("/offline.html", ⟨200, "basic", "off"⟩)])]
        "Kukaya-v1.0-7") "/offline.html" = some ⟨200, "basic", "off"⟩ ∧
    (handleRequest "Kukaya-v1.0-7"
        [("Kukaya-v1.0-7", [("/offline.html", ⟨200, "basic", "off"⟩)])]
        ⟨"GET", "/dashboard.html", "navigate"⟩ none).1
      = FetchOutcome.fallbackPage ⟨200, "basic", "off"⟩ := by
  refine ⟨rfl, rfl, by decide, by decide, ?_⟩
  exact navigation_offline_fallback "Kukaya-v1.0-7" _ _ _ rfl rfl
    (by decide) (by decide)

/-! ### C6 — failure propagates for non-navigation requests -/

/-- C6: a non-navigation GET request with no cached entry whose network
fetch fails yields a propagated failure: no fallback page is substituted
and no response is fabricated. -/
theorem non_navigation_failure_propagates (cacheName : String)
    (s : CacheStorage) (req : Request)
    (hm : req.method = "GET") (hmode : req.mode ≠ "navigate")
    (hnc : cacheMatch (getCache s cacheName) req.url = none) :
    (handleRequest cacheName s req none).1 = FetchOutcome.failure := by
  have hnc1 : cacheMatch (getCache (cachesOpen s cacheName) cacheName) req.url
      = none := by rw [getCache_cachesOpen]; exact hnc
  unfold handleRequest
  simp [hm, hmode, hnc1]

theorem non_navigation_failure_propagates_witness :
    (⟨"GET", "/js/api.js", "no-cors"⟩ : Request).method = "GET" ∧
    (⟨"GET", "/js/api.js", "no-cors"⟩ : Request).mode ≠ "navigate" ∧
    cacheMatch (getCache ([] : CacheStorage) "Kukaya-v1.0-7") "/js/api.js"
      = none ∧
    (handleRequest "Kukaya-v1.0-7" [] ⟨"GET", "/js/api.js", "no-cors"⟩ none).1
      = FetchOutcome.failure := by
  refine ⟨rfl, by decide, by decide, ?_⟩
  exact non_navigation_failure_propagates "Kukaya-v1.0-7" [] _ rfl
    (by decide) (by decide)

/-! ### C7 — opaque / non-200 responses are never written to the cache -/

/-- C7: when the network fetch succeeds but the response is not status
200 with type basic (for instance an opaque cross-origin response), the
fetch handler writes nothing: every entry of the current generation is
exactly what it was before the request. -/
theorem uncacheable_response_not_stored (cacheName : String)
    (s : CacheStorage) (req : Request) (nr : Response)
    (h : ¬(nr.status = 200 ∧ nr.rtype = "basic")) :
    ∀ u : String,
      cacheMatch (getCache (handleRequest cacheName s req (some nr)).2 cacheName) u
        = cacheMatch (getCache s cacheName) u := by
  intro u
  unfold handleRequest
  by_cases hm : (req.method != "GET") = true
  · simp [hm]
  · have hcond : (nr.status == 200 && nr.rtype == "basic") = false := by
      by_cases h1 : nr.status = 200
      · by_cases h2 : nr.rtype = "basic"
        · exact absurd ⟨h1, h2⟩ h
        · simp [h2]
      · simp [h1]
    simp [hm, hcond, getCache_cachesOpen]

theorem uncacheable_response_not_stored_witness :
    ¬((⟨200, "opaque", "x"⟩ : Response).status = 200 ∧
      (⟨200, "opaque", "x"⟩ : Response).rtype = "basic") ∧
    cacheMatch
      (getCache (handleRequest "Kukaya-v1.0-7"
          [("Kukaya-v1.0-7", [])] ⟨"GET", "https://cdn.example/x.js", "no-cors"⟩
          (some ⟨200, "opaque", "x"⟩)).2 "Kukaya-v1.0-7")
      "https://cdn.example/x.js"
      = cacheMatch (getCache [("Kukaya-v1.0-7", [])] "Kukaya-v1.0-7")
          "https://cdn.example/x.js" :=
  ⟨by decide,
   uncacheable_response_not_stored "Kukaya-v1.0-7" [("Kukaya-v1.0-7", [])]
     ⟨"GET", "https://cdn.example/x.js", "no-cors"⟩ ⟨200, "opaque", "x"⟩
     (by decide) "https://cdn.example/x.js"⟩

/-! ### Lemmas about addAll / putMany (install machinery) -/

theorem getCache_of_not_has (s : CacheStorage) (n : String)
    (h : storageHas s n = false) : getCache s n = [] := by
  induction s with
  | nil => rfl
  | cons g gs ih =>
    simp only [storageHas, List.any_cons, Bool.or_eq_false_iff] at h
    simp only [getCache, List.find?, h.1]
    exact ih h.2

theorem cacheMatch_cachePutEntry_ne (c : Cache) (u v : String) (r : Response)
    (h : v ≠ u) : cacheMatch (cachePutEntry c u r) v = cacheMatch c v := by
  have hu : (u == v) = false := by simp [Ne.symm h]
  unfold cacheMatch cachePutEntry
  induction c with
  | nil => simp [List.find?, hu]
  | cons e es ih =>
    by_cases he : (e.1 == u) = true
    · have hev : (e.1 == v) = false := by
        rw [beq_iff_eq] at he
        simp [he, Ne.symm h]
      simp only [List.filter_cons, bne, he, Bool.not_true, if_false,
        List.find?, hev] at ih ⊢
      simpa [List.find?, hu] using ih
    · have he2 : (e.1 != u) = true := by simp [bne]; simpa using he
      by_cases hev : (e.1 == v) = true
      · simp [List.filter_cons, he2, List.find?, hev, hu]
      · simp only [List.filter_cons, he2, if_true, List.find?, hev] at ih ⊢
        simpa [List.find?, hu, hev] using ih

theorem cacheMatch_putEntry_isSome (c : Cache) (u v : String) (r : Response)
    (h : (cacheMatch c v).isSome = true) :
    (cacheMatch (cachePutEntry c u r) v).isSome = true := by
  by_cases hv : v = u
  · subst hv; rw [cacheMatch_cachePutEntry_self]; rfl
  · rw [cacheMatch_cachePutEntry_ne c u v r hv]; exact h

theorem putMany_isSome_preserved (es : List (String × Response)) :
    ∀ (c : Cache) (v : String), (cacheMatch c v).isSome = true →
      (cacheMatch (putMany c es) v).isSome = true := by
  induction es with
  | nil => intro c v h; exact h
  | cons e es ih =>
    intro c v h
    simp only [putMany, List.foldl_cons] at ih ⊢
    exact ih _ v (cacheMatch_putEntry_isSome c e.1 v e.2 h)

theorem putMany_isSome_of_mem (es : List (String × Response)) :
    ∀ (c : Cache) (v : String), v ∈ es.map Prod.fst →
      (cacheMatch (putMany c es) v).isSome = true := by
  induction es with
  | nil => intro c v h; simp at h
  | cons e es ih =>
    intro c v h
    rw [List.map_cons] at h
    rcases List.mem_cons.mp h with h1 | h1
    · subst h1
      have hbase : (cacheMatch (cachePutEntry c e.1 e.2) e.1).isSome = true := by
        rw [cacheMatch_cachePutEntry_self]; rfl
      simpa only [putMany, List.foldl_cons] using
        putMany_isSome_preserved es (cachePutEntry c e.1 e.2) e.1 hbase
    · simpa only [putMany, List.foldl_cons] using
        ih (cachePutEntry c e.1 e.2) v h1

theorem addAll_map_fst (net : Net) :
    ∀ (urls : List String) (es : List (String × Response)),
      addAll net urls = some es → es.map Prod.fst = urls := by
  intro urls
  induction urls with
  | nil =>
    intro es h
    simp only [addAll, Option.some_inj] at h
    subst h; rfl
  | cons u us ih =>
    intro es h
    unfold addAll at h
    cases hn : net u with
    | none => rw [hn] at h; simp at h
    | some r =>
      rw [hn] at h
      cases ha : addAll net us with
      | none => rw [ha] at h; simp at h
      | some es2 =>
        rw [ha] at h
        simp only [Option.some_inj] at h
        subst h
        simp [ih es2 ha]

theorem addAll_fails_of_mem (net : Net) :
    ∀ (urls : List String) (u : String), u ∈ urls → net u = none →
      addAll net urls = none := by
  intro urls
  induction urls with
  | nil => intro u h; simp at h
  | cons v us ih =>
    intro u h hn
    rcases List.mem_cons.mp h with h1 | h1
    · subst h1
      simp [addAll, hn]
    · have hrest : addAll net us = none := ih u h1 hn
      unfold addAll
      rw [hrest]
      cases net v <;> rfl

/-! ### C2 — installation is all-or-nothing -/

/-- C2: installing into a fresh generation either succeeds with every
path of the asset set present in the new generation's cache, or — as soon
as fetching any single asset-set path fails — the whole install attempt
fails and the new generation holds no entry at all (nothing partial is
promoted). -/
theorem install_all_or_nothing (cacheName : String) (s : CacheStorage)
    (net : Net) (hfresh : storageHas s cacheName = false) :
    ((install cacheName s net).1 = true →
      ∀ u ∈ urlsToCache,
        (cacheMatch (getCache (install cacheName s net).2 cacheName) u).isSome
          = true) ∧
    ((∃ u ∈ urlsToCache, net u = none) →
      (install cacheName s net).1 = false ∧
      getCache (install cacheName s net).2 cacheName = []) := by
  constructor
  · intro hok u hu
    unfold install at hok ⊢
    cases ha : addAll net urlsToCache with
    | none => rw [ha] at hok; simp at hok
    | some es =>
      show (cacheMatch (getCache (setCache (cachesOpen s cacheName) cacheName
        (putMany (getCache (cachesOpen s cacheName) cacheName) es))
          cacheName) u).isSome = true
      rw [getCache_setCache_self _ cacheName _ (storageHas_cachesOpen s cacheName)]
      exact putMany_isSome_of_mem es _ u
        (by rw [addAll_map_fst net urlsToCache es ha]; exact hu)
  · rintro ⟨u, hu, hn⟩
    have ha : addAll net urlsToCache = none :=
      addAll_fails_of_mem net urlsToCache u hu hn
    unfold install
    rw [ha]
    refine ⟨rfl, ?_⟩
    show getCache (cachesOpen s cacheName) cacheName = []
    rw [getCache_cachesOpen]
    exact getCache_of_not_has s cacheName hfresh

theorem install_all_or_nothing_witness :
    storageHas ([] : CacheStorage) "Kukaya-v1.0-7" = false ∧
    (install "Kukaya-v1.0-7" []
        (fun u => some ⟨200, "basic", u⟩)).1 = true ∧
    (∀ u ∈ urlsToCache,
      (cacheMatch (getCache (install "Kukaya-v1.0-7" []
          (fun u => some ⟨200, "basic", u⟩)).2 "Kukaya-v1.0-7") u).isSome
        = true) ∧
    (install "Kukaya-v1.0-7" [] (fun _ => none)).1 = false ∧
    getCache (install "Kukaya-v1.0-7" [] (fun _ => none)).2 "Kukaya-v1.0-7"
      = [] := by
  refine ⟨by decide, by decide, ?_, ?_⟩
  · exact (install_all_or_nothing "Kukaya-v1.0-7" []
      (fun u => some ⟨200, "basic", u⟩) (by decide)).1 (by decide)
  · exact (install_all_or_nothing "Kukaya-v1.0-7" [] (fun _ => none)
      (by decide)).2 ⟨"/index.html", by decide, rfl⟩

/-! ### Lemmas about activate -/

theorem foldl_cachesDelete (ns : List String) :
    ∀ s : CacheStorage,
      ns.foldl (fun acc n => cachesDelete acc n) s
        = s.filter (fun g => !(ns.contains g.1)) := by
  induction ns with
  | nil =>
    intro s
    simp [List.filter_true]
  | cons n ns ih =>
    intro s
    rw [List.foldl_cons, ih (cachesDelete s n)]
    unfold cachesDelete
    rw [List.filter_filter]
    apply List.filter_congr
    intro g _
    simp only [List.contains_cons, Bool.not_or]
    rw [Bool.and_comm]
    rfl

theorem activate_eq_filter (cacheName : String) (s : CacheStorage) :
    activate cacheName s = s.filter (fun g => g.1 == cacheName) := by
  unfold activate
  rw [foldl_cachesDelete]
  apply List.filter_congr
  intro g hg
  by_cases h : g.1 = cacheName
  · rw [h]
    have hc : (List.filter (fun n => n != cacheName) (s.map Prod.fst)).contains
        cacheName = false := by
      cases hcon : (List.filter (fun n => n != cacheName)
          (s.map Prod.fst)).contains cacheName
      · rfl
      · exfalso
        rcases List.mem_filter.mp (List.elem_iff.mp hcon) with ⟨_, hne⟩
        simp at hne
    rw [hc]
    simp
  · have h1 : (g.1 == cacheName) = false := by simpa using h
    have hc : (List.filter (fun n => n != cacheName) (s.map Prod.fst)).contains
        g.1 = true := by
      apply List.elem_iff.mpr
      apply List.mem_filter.mpr
      exact ⟨List.mem_map.mpr ⟨g, hg, rfl⟩, by simpa using h⟩
    rw [h1, hc]
    rfl

theorem filter_beq_of_nodup :
    ∀ (l : List String), l.Nodup → ∀ c ∈ l, l.filter (fun n => n == c) = [c] := by
  intro l
  induction l with
  | nil => intro _ c h; simp at h
  | cons a l ih =>
    intro hnd c hc
    rcases List.mem_cons.mp hc with h1 | h1
    · subst h1
      have hna : c ∉ l := (List.nodup_cons.mp hnd).1
      have hrest : l.filter (fun n => n == c) = [] := by
        apply List.filter_eq_nil_iff.mpr
        intro x hx hbeq
        rw [beq_iff_eq] at hbeq
        subst hbeq
        exact hna hx
      simp [List.filter_cons, hrest]
    · have hne : (a == c) = false := by
        have : a ≠ c := by
          rintro rfl
          exact (List.nodup_cons.mp hnd).1 h1
        simpa using this
      rw [List.filter_cons, hne]
      simp only [Bool.false_eq_true, if_false]
      exact ih (List.nodup_cons.mp hnd).2 c h1

/-! ### C4 — activation leaves exactly the current generation -/

/-- C4: when the generation names in storage are distinct and the current
generation is present, `activate` deletes every generation whose name
differs from the current identifier and keeps exactly the current one,
its entries untouched. -/
theorem activate_leaves_only_current (cacheName : String) (s : CacheStorage)
    (hnd : (s.map Prod.fst).Nodup) (hmem : cacheName ∈ s.map Prod.fst) :
    (activate cacheName s).map Prod.fst = [cacheName] ∧
    ∀ g ∈ activate cacheName s, g ∈ s := by
  rw [activate_eq_filter]
  constructor
  · have hcomp : (s.filter (fun g => g.1 == cacheName)).map Prod.fst
        = (s.map Prod.fst).filter (fun n => n == cacheName) := by
      rw [List.filter_map]
      rfl
    rw [hcomp]
    exact filter_beq_of_nodup (s.map Prod.fst) hnd cacheName hmem
  · intro g hg
    exact List.mem_of_mem_filter hg

theorem activate_leaves_only_current_witness :
    (([("Kukaya-v1.0-3", [("/index.html", ⟨200, "basic", "old"⟩)]),
       ("Kukaya-v1.0-7", [("/index.html", ⟨200, "basic", "new"⟩)])] :
        CacheStorage).map Prod.fst).Nodup ∧
    "Kukaya-v1.0-7" ∈
      (([("Kukaya-v1.0-3", [("/index.html", ⟨200, "basic", "old"⟩)]),
         ("Kukaya-v1.0-7", [("/index.html", ⟨200, "basic", "new"⟩)])] :
          CacheStorage).map Prod.fst) ∧
    (activate "Kukaya-v1.0-7"
      [("Kukaya-v1.0-3", [("/index.html", ⟨200, "basic", "old"⟩)]),
       ("Kukaya-v1.0-7", [("/index.html", ⟨200, "basic", "new"⟩)])]).map Prod.fst
      = ["Kukaya-v1.0-7"] := by
  refine ⟨by decide, by decide, ?_⟩
  exact (activate_leaves_only_current "Kukaya-v1.0-7"
    [("Kukaya-v1.0-3", [("/index.html", ⟨200, "basic", "old"⟩)]),
     ("Kukaya-v1.0-7", [("/index.html", ⟨200, "basic", "new"⟩)])]
    (by decide) (by decide)).1

/-! ### C9 — activation is idempotent -/

/-- C9: running `activate` a second time with the same current generation
identifier leaves cache storage exactly as the first run left it: no
generation is deleted and no entry changes. -/
theorem activate_idempotent (cacheName : String) (s : CacheStorage) :
    activate cacheName (activate cacheName s) = activate cacheName s := by
  rw [activate_eq_filter, activate_eq_filter, List.filter_filter]
  apply List.filter_congr
  intro g _
  rw [Bool.and_self]

/-! ### C8 — push notifications -/

/-- C8 counterexample: a push message whose data is present but is not
valid JSON makes `event.data.json()` throw before `showNotification` is
reached, so no notification at all is shown — in particular not the
default-titled one the claim promises. -/
theorem push_malformed_shows_no_notification :
    notificationShown (handlePush (some (Except.error ()))) = false := rfl

/-- C8 (amended): when the push data is absent, or parses to a falsy JSON
value, the notification carries the default title "Kukaya" and body "New
notification"; when the data is present but not valid JSON the parse
error propagates and no notification is shown; when the data parses to a
truthy JSON value the notification carries that value's title and body
fields and the fixed icon /favicon.ico. -/
theorem push_notification_policy :
    (handlePush none = Except.ok
      ⟨JVal.jstr "Kukaya", JVal.jstr "New notification", "/favicon.ico"⟩) ∧
    (∀ e : Unit, handlePush (some (Except.error e)) = Except.error e) ∧
    (∀ v : JVal, truthy v = false → handlePush (some (Except.ok v)) =
      Except.ok ⟨JVal.jstr "Kukaya", JVal.jstr "New notification", "/favicon.ico"⟩) ∧
    (∀ v : JVal, truthy v = true → handlePush (some (Except.ok v)) =
      Except.ok ⟨getField v "title", getField v "body", "/favicon.ico"⟩) := by
  refine ⟨rfl, fun e => rfl, fun v hv => ?_, fun v hv => ?_⟩
  · unfold handlePush
    simp [hv, defaultData, getField]
  · unfold handlePush
    simp [hv]

theorem push_notification_policy_witness :
    truthy (JVal.jobj [("title", JVal.jstr "Hi"), ("body", JVal.jstr "There")])
      = true ∧
    handlePush (some (Except.ok
        (JVal.jobj [("title", JVal.jstr "Hi"), ("body", JVal.jstr "There")])))
      = Except.ok
        ⟨getField (JVal.jobj [("title", JVal.jstr "Hi"),
            ("body", JVal.jstr "There")]) "title",
         getField (JVal.jobj [("title", JVal.jstr "Hi"),
            ("body", JVal.jstr "There")]) "body",
         "/favicon.ico"⟩ :=
  ⟨rfl, push_notification_policy.2.2.2
    (JVal.jobj [("title", JVal.jstr "Hi"), ("body", JVal.jstr "There")]) rfl⟩

end Kukaya
